import Mathlib

/-!
# Verification of the pottery-studio Monte Carlo simulator

Shallow embedding of the core numeric routines of `modular_simulator.py`
(loan scheduling, capacity damping, firing fees, churn probabilities,
configuration resolution, onboarding-cap enforcement, prospect-pool updates,
the monthly cash-balance update, and the Monte Carlo driver's per-trial
state reset), together with theorems settling the specification's claims.

Python floats are modelled by rational numbers (exact field arithmetic), Python ints by integers.
-/

namespace PotterySim

/-! ## Loan scheduler (`build_loan_schedule`, `_add_staged_tranche_into_array`) -/

/-- Payment at 0-based month `m` of the schedule built by `build_loan_schedule`
in `modular_simulator.py`.  The Python function fills a length-`total_months`
array: the slice `[0, io_len)` holds the interest-only payment
(`principal * r`, written `0.0` when `r == 0`), the slice
`[io_len, min total_months (io_len + rem_term))` holds the level annuity
payment over the remaining `rem_term` periods (or `principal / rem_term` when
`r == 0`), and everything else is zero.  Indices outside `[0, total_months)`
are modelled as `0` (outside the array). -/

def build_loan_schedule (principal annual_rate : ℚ)
    (term_years io_months total_months : ℤ) (m : ℤ) : ℚ :=
  if principal ≤ 0 ∨ total_months ≤ 0 then 0
  else
    let r : ℚ := annual_rate / 12
    let term_m : ℤ := term_years * 12
    let io_m : ℤ := min (max 0 io_months) term_m
    let io_len : ℤ := min io_m total_months
    let rem_term : ℤ := term_m - io_len
    if 0 ≤ m ∧ m < io_len then (if r = 0 then 0 else principal * r)
    else if 0 < rem_term ∧ 0 ≤ m ∧ io_len ≤ m ∧
        m < min total_months (io_len + rem_term) then
      (if r = 0 then principal / (rem_term : ℚ)
       else principal * (r / (1 - (1 + r) ^ (-rem_term))))
    else 0

/-- Model of `_add_staged_tranche_into_array` from `modular_simulator.py`: build the
tranche's schedule and add it into `arr`, the first payment landing at
`start_month + 1`; a non-positive principal is a no-op.  The array slice
`arr[start:end] += sched[:seg_len]` with `start = min total (max 0 (d+1))`
and `end = min total (start + len sched)` is modelled pointwise. -/

def add_staged_tranche_into_array (arr : ℤ → ℚ) (start_month : ℤ)
    (principal annual_rate : ℚ) (amort_years io_months total_months : ℤ) :
    ℤ → ℚ :=
  if principal ≤ 0 then arr
  else fun m =>
    let start : ℤ := min total_months (max 0 (start_month + 1))
    if start ≤ m ∧ m < min total_months (start + max 0 total_months) then
      arr m + build_loan_schedule principal annual_rate amort_years io_months
        total_months (m - start)
    else arr m

/-! ## Capacity damping (month loop, lines 1406-1407) -/

/-- The month loop computes `cap_ratio = len(active_members) / max(1.0, MEMBERSHIP_SOFT_CAP)`
and `capacity_damping = max(0.0, 1.0 - cap_ratio ** CAPACITY_DAMPING_BETA)`.
The sharpness exponent knob is the integer constant `CAPACITY_DAMPING_BETA = 4`,
modelled here as an arbitrary integer exponent. -/

def capacity_damping (active : ℕ) (softCap : ℚ) (beta : ℤ) : ℚ :=
  max 0 (1 - ((active : ℚ) / max 1 softCap) ^ beta)

/-! ## Firing fee (`compute_firing_fee`, lines 876-917) -/

/-- One tier of the firing-fee schedule: `{"up_to_lbs": int|None, "rate": float}`;
`none` stands for "no upper limit". -/

structure FiringTier where
  up_to_lbs : Option ℚ
  rate : ℚ
deriving DecidableEq

/-- The `1e-9` epsilon used by `compute_firing_fee`'s early-exit checks. -/

def firingEps : ℚ := 1 / 1000000000

/-- The tier loop of `compute_firing_fee`: state is `(total, remaining)` with
the running lower cutoff `prev_cut`; each tier charges
`band = max(0, min(remaining, up_to - prev_cut))` at the tier's rate and the
loop breaks once `remaining ≤ 1e-9`.  A `none` cutoff stands for
`float("inf")`, where `band = max(0, min(remaining, inf - prev_cut)) =
max(0, remaining)`; after such a tier `remaining ≤ 0 ≤ 1e-9`, so the Python
loop always breaks there, which the `none` branch returns directly. -/

def firingLoop : List FiringTier → ℚ → ℚ → ℚ → ℚ × ℚ
  | [], total, remaining, _ => (total, remaining)
  | t :: rest, total, remaining, prev_cut =>
    match t.up_to_lbs with
    | some cut =>
      let band := max 0 (min remaining (cut - prev_cut))
      let total2 := if 0 < band then total + band * t.rate else total
      let remaining2 := if 0 < band then remaining - band else remaining
      if remaining2 ≤ firingEps then (total2, remaining2)
      else firingLoop rest total2 remaining2 cut
    | none =>
      let band := max 0 remaining
      let total2 := if 0 < band then total + band * t.rate else total
      let remaining2 := if 0 < band then remaining - band else remaining
      (total2, remaining2)

/-- The built-in default firing-fee schedule (also the fallback used when the
override is missing or malformed). -/

def defaultFiringSchedule : List FiringTier :=
  [⟨some 20, 3⟩, ⟨some 40, 4⟩, ⟨none, 5⟩]

/-- The rate `sched[-1]["rate"]` of the last tier, for a nonempty schedule (`0` for the empty list, which
`compute_firing_fee` never passes). -/

def lastRate : List FiringTier → ℚ
  | [] => 0
  | [t] => t.rate
  | _ :: rest => lastRate rest

/-- The final step of `compute_firing_fee`: if clay remains after the tier
loop (no open-ended final tier consumed it), charge it at the last rate. -/

def firingFinish (lr : ℚ) (res : ℚ × ℚ) : ℚ :=
  if firingEps < res.2 then res.1 + res.2 * lr else res.1

/-- Model of `compute_firing_fee(clay_lbs)` with the tier schedule passed explicitly
(the Python reads the module global `FIRING_FEE_SCHEDULE` and falls back to
the default when the override is missing, malformed or empty; the empty-list
fallback is kept here, non-list overrides are outside the model). -/

def compute_firing_fee (sched : List FiringTier) (clay_lbs : ℚ) : ℚ :=
  let s := if sched.isEmpty then defaultFiringSchedule else sched
  firingFinish (lastRate s) (firingLoop s 0 clay_lbs 0)

/-! ## Churn probability (`month_churn_prob` and the churn block, lines 1613-1633) -/

/-- The clamp `np.clip(x, 0.0, 0.99)` as applied to the leave probability. -/

def clip_churn (x : ℚ) : ℚ := min (max x 0) (99/100)

/-- Model of `month_churn_prob(arch, tenure_mo)`: the archetype's base monthly churn
rate (the dict lookup `ARCHETYPE_MONTHLY_CHURN[arch]` is passed here as
`base`) under the piecewise tenure hazard: `min(0.99, base * 1.8)` for tenure
at most 2 months, `base` for 3-6 months, `base * 0.7` beyond. -/

def month_churn_prob (base : ℚ) (tenure_mo : ℤ) : ℚ :=
  if tenure_mo ≤ 2 then min (99/100) (base * (9/5))
  else if tenure_mo ≤ 6 then base
  else base * (7/10)

/-- The crowding excess `util_over = max(0.0, len(active_members) / max(1.0, MEMBERSHIP_SOFT_CAP) - 1.0)`
from the churn block. -/

def util_over (active : ℕ) (softCap : ℚ) : ℚ :=
  max 0 ((active : ℚ) / max 1 softCap - 1)

/-- The per-member leave probability of the churn block: the tiered base rate
times the downturn regime multiplier, the churn price-elasticity multiplier,
the crowding uplift `1 + UTILIZATION_CHURN_UPLIFT * util_over` and the
seasonal churn multiplier, clipped to `[0, 0.99]`. -/

def p_leave (base churn_mult price_mult_churn uplift scm : ℚ) (active : ℕ)
    (softCap : ℚ) (tenure : ℤ) : ℚ :=
  clip_churn (month_churn_prob base tenure * churn_mult * price_mult_churn *
    (1 + uplift * util_over active softCap) * scm)

/-! ## Configuration resolver (`get_default_cfg`, `resolve_cfg`, lines 134-189) -/

/-- A JSON-like configuration value: scalar, list, or string-keyed mapping. -/

inductive CfgValue where
  | num (q : ℚ)
  | str (s : String)
  | boolean (b : Bool)
  | null
  | list (items : List CfgValue)
  | map (entries : List (String × CfgValue))

/-- The check `isinstance(v, dict)`. -/

def CfgValue.isMap : CfgValue → Bool
  | .map _ => true
  | _ => false

/-- Python-dict lookup on an association list (first binding wins). -/

def cfgLookup (cfg : List (String × CfgValue)) (k : String) : Option CfgValue :=
  match cfg with
  | [] => none
  | (k2, v) :: rest => if k2 = k then some v else cfgLookup rest k

/-- The merge `merged = dict(defaults); merged.update(user)`: an association list in
which every user binding shadows the default binding of the same key. -/

def dictUpdate (base overrides : List (String × CfgValue)) :
    List (String × CfgValue) :=
  overrides ++ base

/-- The assignment `merged[k] = v`. -/

def cfgSet (cfg : List (String × CfgValue)) (k : String) (v : CfgValue) :
    List (String × CfgValue) :=
  (k, v) :: cfg

/-- The module's ALL_CAPS constants snapshotted by `get_default_cfg`,
restricted to the constants the resolver claims are about (values copied
from the source's constant section; `0.10 = 10/100` etc.). -/

def default_cfg : List (String × CfgValue) :=
  [("MONTHS", .num 60),
   ("N_SIMULATIONS", .num 100),
   ("RANDOM_SEED", .num 42),
   ("PRICE", .num 175),
   ("MAX_MEMBERS", .num 77),
   ("POOL_BASE_INTENT", .map
     [("community_studio", .num (10/100)),
      ("home_studio", .num (10/1000)),
      ("no_access", .num (40/1000))]),
   ("MARKET_POOLS_INFLOW", .map
     [("community_studio", .num 4),
      ("home_studio", .num 2),
      ("no_access", .num 3)]),
   ("MARKET_POOLS", .map
     [("community_studio", .num 70),
      ("home_studio", .num 50),
      ("no_access", .num 20)]),
   ("MEMBER_ARCHETYPES", .map
     [("Hobbyist", .map
        [("prob", .num (35/100)), ("monthly_fee", .num 175),
         ("clay_bags", .list [.num (1/4), .num (1/2), .num 1])]),
      ("Committed Artist", .map
        [("prob", .num (40/100)), ("monthly_fee", .num 185),
         ("clay_bags", .list [.num 1, .num (3/2), .num 2])]),
      ("Production Potter", .map
        [("prob", .num (10/100)), ("monthly_fee", .num 200),
         ("clay_bags", .list [.num 2, .num (5/2), .num 3])]),
      ("Seasonal User", .map
        [("prob", .num (15/100)), ("monthly_fee", .num 150),
         ("clay_bags", .list [.num (1/4), .num (1/2), .num 1])])]),
   ("STATIONS", .map
     [("wheels", .map
        [("capacity", .num 8), ("alpha", .num (80/100)), ("kappa", .num 2)]),
      ("handbuilding", .map
        [("capacity", .num 6), ("alpha", .num (50/100)), ("kappa", .num 3)]),
      ("glaze", .map
        [("capacity", .num 6), ("alpha", .num (55/100)),
         ("kappa", .num (26/10))])])]

/-- The per-key guard in `resolve_cfg`: if the merged value at `k` is not a
mapping, drop it and restore the default mapping for `k`. -/

def guardKey (merged : List (String × CfgValue)) (k : String) :
    List (String × CfgValue) :=
  match cfgLookup merged k with
  | some (.map _) => merged
  | _ => cfgSet merged k ((cfgLookup default_cfg k).getD (.map []))

/-- Model of `resolve_cfg(user_cfg)` from `modular_simulator.py`: shallow-merge the
user overrides onto the defaults, then — only when overrides were supplied —
guard exactly the two dict-typed knobs `POOL_BASE_INTENT` and
`MARKET_POOLS_INFLOW` against non-mapping overrides.  No other key is
guarded. -/

def resolve_cfg (user_cfg : List (String × CfgValue)) :
    List (String × CfgValue) :=
  let merged := dictUpdate default_cfg user_cfg
  if user_cfg.isEmpty then merged
  else guardKey (guardKey merged "POOL_BASE_INTENT") "MARKET_POOLS_INFLOW"

/-! ## Monthly cash-balance update (`_core_simulation_and_reports`,
lines 1876 and 1904-2038) -/

/-- The inputs of one month's cash-balance update, as computed earlier in
the month loop: the already-accrued revenue/opex/sales-tax totals, the loan
configuration, the capital-expenditure purchases triggered this month
(`capex_draw`, each queued item has positive cost, so this sum is
non-negative), the precomputed staged-capex tranche `_capex_draws_ts[month]`,
the staged-opex drawing rule `LOAN_STAGED_RULE_OPEX`, and the grant
schedule.  `queue_nonempty` is the `if _capex_queue:` guard. -/

structure CashMonthInputs where
  month : ℤ
  cash_balance : ℚ
  total_revenue : ℚ
  total_opex_cash : ℚ
  sales_tax_collected : ℚ
  capex_mode : String
  opex_mode : String
  loan_504_principal : ℚ
  loan_7a_principal : ℚ
  fees_cash_outflow : ℚ
  queue_nonempty : Bool
  capex_draw : ℚ
  capex_tranche : ℚ
  opex_reserve_floor : ℚ
  opex_min_draw : ℚ
  opex_max_draw : Option ℚ
  opex_remaining : ℚ
  grant_month : Option ℤ
  grant_amount : ℚ

/-- The row fields produced by the month's cash update. -/

structure CashMonthResult where
  cash_balance : ℚ
  capex_draw : ℚ
  tranche_capex : ℚ
  tranche_opex : ℚ
  grant_received : ℚ

/-- The flow `net_cash_flow = total_revenue - total_opex_cash + sales_tax_collected`
(line 1876). -/

def net_cash_flow (inp : CashMonthInputs) : ℚ :=
  inp.total_revenue - inp.total_opex_cash + inp.sales_tax_collected

/-- The grant credit: `grant_amount` in the configured grant month, else 0. -/

def grant_received_amt (inp : CashMonthInputs) : ℚ :=
  if inp.grant_month = some inp.month then inp.grant_amount else 0

/-- The cash balance after the month-0 block (lines 1904-1918): upfront
principal credits for each loan in "upfront" mode plus the cash payment of
non-financed fees; unchanged in months past 0. -/

def cash_after_proceeds (inp : CashMonthInputs) : ℚ :=
  if inp.month = 0 then
    inp.cash_balance
      + (if inp.capex_mode = "upfront" ∧ 0 < inp.loan_504_principal then
          inp.loan_504_principal else 0)
      + (if inp.opex_mode = "upfront" ∧ 0 < inp.loan_7a_principal then
          inp.loan_7a_principal else 0)
      - (if 0 < inp.fees_cash_outflow then inp.fees_cash_outflow else 0)
  else inp.cash_balance

/-- The cash balance after this month's triggered capital-expenditure
purchases are paid (line 1967-1968; the subtraction is guarded by
`capex_draw_this_month > 0.0`). -/

def cash_after_capex (inp : CashMonthInputs) : ℚ :=
  if 0 < inp.capex_draw then cash_after_proceeds inp - inp.capex_draw
  else cash_after_proceeds inp

/-- The staged-capex tranche credited this month (lines 1974-1977): the
precomputed `_capex_draws_ts[month]` in "staged" mode, else 0. -/

def capex_tranche_credit (inp : CashMonthInputs) : ℚ :=
  if inp.capex_mode = "staged" then inp.capex_tranche else 0

/-- The staged-opex reserve-floor draw (lines 1989-2005): when the running
cash is below the reserve floor and facility remains, draw
`min(min(max(needed, min_draw), max_draw), opex_remaining)` if positive. -/

def staged_opex_draw (opexMode : String) (cash3 reserve_floor min_draw : ℚ)
    (max_draw : Option ℚ) (opex_remaining : ℚ) : ℚ :=
  if opexMode = "staged" then
    if cash3 < reserve_floor ∧ 0 < opex_remaining then
      let d1 := max (reserve_floor - cash3) min_draw
      let d2 := match max_draw with
        | some c => min d1 c
        | none => d1
      let d3 := min d2 opex_remaining
      if 0 < d3 then d3 else 0
    else 0
  else 0

/-- This month's staged-opex tranche, evaluated at the cash level the code
holds when it tests the reserve floor (after capex payment and the
staged-capex credit). -/

def opex_tranche_draw (inp : CashMonthInputs) : ℚ :=
  staged_opex_draw inp.opex_mode
    (cash_after_capex inp + capex_tranche_credit inp)
    inp.opex_reserve_floor inp.opex_min_draw inp.opex_max_draw
    inp.opex_remaining

/-- One month of cash-balance evolution, translated from the source: month-0
upfront loan proceeds and cash-paid fees; then — only inside the
`if _capex_queue:` block — capital-expenditure purchases (cash out), the
staged-capex tranche credit, and the staged-opex reserve-floor draw; then
`cash_balance += net_cash_flow`; then the grant credit.  The recorded row
fields `capex_draw`, `loan_tranche_draw_capex`, `loan_tranche_draw_opex` and
`grant_received` are returned alongside. -/

def cash_month_step (inp : CashMonthInputs) : CashMonthResult :=
  if inp.queue_nonempty then
    { cash_balance := cash_after_capex inp + capex_tranche_credit inp
        + opex_tranche_draw inp + net_cash_flow inp + grant_received_amt inp,
      capex_draw := inp.capex_draw,
      tranche_capex := capex_tranche_credit inp,
      tranche_opex := opex_tranche_draw inp,
      grant_received := grant_received_amt inp }
  else
    { cash_balance := cash_after_proceeds inp + net_cash_flow inp
        + grant_received_amt inp,
      capex_draw := 0,
      tranche_capex := 0,
      tranche_opex := 0,
      grant_received := grant_received_amt inp }

/-- The month-0 upfront principal credits (the "upfront" part of the claim's
`loan_proceeds`). -/

def upfront_proceeds (inp : CashMonthInputs) : ℚ :=
  if inp.month = 0 then
    (if inp.capex_mode = "upfront" ∧ 0 < inp.loan_504_principal then
      inp.loan_504_principal else 0)
    + (if inp.opex_mode = "upfront" ∧ 0 < inp.loan_7a_principal then
      inp.loan_7a_principal else 0)
  else 0

/-- The month-0 cash outflow for origination fees that were not financed
into principal. -/

def fee_outflow (inp : CashMonthInputs) : ℚ :=
  if inp.month = 0 ∧ 0 < inp.fees_cash_outflow then inp.fees_cash_outflow
  else 0

/-- A month-1 state with retail clay sales: revenue 100, cash opex 40,
sales tax collected 5, no grant, no capital expenditure, no tranche. -/

def cashCexInput : CashMonthInputs :=
  { month := 1, cash_balance := 0, total_revenue := 100,
    total_opex_cash := 40, sales_tax_collected := 5,
    capex_mode := "upfront", opex_mode := "upfront",
    loan_504_principal := 1000, loan_7a_principal := 500,
    fees_cash_outflow := 100, queue_nonempty := false, capex_draw := 0,
    capex_tranche := 0, opex_reserve_floor := 0, opex_min_draw := 0,
    opex_max_draw := none, opex_remaining := 0, grant_month := none,
    grant_amount := 0 }

/-- A concrete staged-mode month-0 state with a capital purchase, both
tranche kinds and a grant, for the C2 witness. -/

def cashWitnessInput : CashMonthInputs :=
  { month := 0, cash_balance := 2000, total_revenue := 500,
    total_opex_cash := 300, sales_tax_collected := 25,
    capex_mode := "staged", opex_mode := "staged",
    loan_504_principal := 0, loan_7a_principal := 0,
    fees_cash_outflow := 150, queue_nonempty := true,
    capex_draw := 8000, capex_tranche := 8000,
    opex_reserve_floor := 1000, opex_min_draw := 500,
    opex_max_draw := some 4000, opex_remaining := 20000,
    grant_month := some 0, grant_amount := 10000 }

/-! ## Prospect pools, joins and the onboarding cap
(`draw_adopters`, `compute_cs_unlock_share`, month loop lines 1402-1593) -/

/-- Python 3 `int(round(num/den))` for `den > 0`, round half to even, in
exact integer arithmetic: `f = ⌊num/den⌋` via floor division, and the
fractional remainder is compared against `1/2` by comparing
`2*(num - f*den)` against `den`. -/

def pyRoundFrac (num den : ℤ) : ℤ :=
  let f := Int.fdiv num den
  let r2 := 2 * (num - f * den)
  if r2 < den then f
  else if den < r2 then f + 1
  else if f % 2 = 0 then f else f + 1

/-- The three prospect pools and the community-studio eligible sub-pool. -/

structure PoolState where
  no_access : ℤ
  home_studio : ℤ
  community_studio : ℤ
  cs_eligible : ℤ

/-- The configuration knobs the month's pool/join pipeline reads. -/

structure MonthParams where
  compartment : Bool
  class_term_months : ℤ
  cs_unlock_fraction : ℚ
  month : ℤ
  inflow_na : ℤ
  inflow_home : ℤ
  inflow_cs : ℤ
  max_onboardings : Option ℤ

/-- The month's random draws.  The organic draws are oracles applied to the
pool they sample from, mirroring `draw_adopters(remaining_pool, intent, rng)`
(a Binomial draw with `n = max(0, remaining_pool)`); `referral` and
`baseline` are the raw Poisson counts; `workshops` and `class_conversions`
are this month's conversion counts. -/

structure DrawOracles where
  organic_na : ℤ → ℤ
  organic_home : ℤ → ℤ
  organic_cs : ℤ → ℤ
  referral : ℤ
  baseline : ℤ
  workshops : ℤ
  class_conversions : ℤ

/-- Support of `draw_adopters`: a Binomial draw with
`n = int(max(0, remaining_pool))` lies in `[0, max 0 remaining_pool]`. -/

def binomial_support (f : ℤ → ℤ) : Prop :=
  ∀ n : ℤ, 0 ≤ f n ∧ f n ≤ max 0 n

/-- Model of `compute_cs_unlock_share`: every `CLASS_TERM_MONTHS` months (after month
0), a `CS_UNLOCK_FRACTION_PER_TERM` share of the remaining community-studio
pool becomes eligible to switch. -/

def compute_cs_unlock_share (term : ℤ) (frac : ℚ) (month pool : ℤ) : ℤ :=
  if term ≤ 0 ∨ pool ≤ 0 then 0
  else if month % term = 0 ∧ 0 < month then ⌊(pool : ℚ) * frac⌋ else 0

/-- The state after the month's join draws, before onboarding-cap
enforcement: the updated pools and the per-source take counts. -/

structure PreCapState where
  pool_na : ℤ
  pool_home : ℤ
  pool_cs : ℤ
  cs_eligible : ℤ
  class_joins : ℤ
  org_na : ℤ
  org_home : ℤ
  org_cs : ℤ
  bn_na : ℤ
  bn_home : ℤ
  bn_cs : ℤ
  ref_na : ℤ
  ref_home : ℤ
  ref_cs : ℤ
  workshops : ℤ
  joins : ℤ

/-- The month's pool/join pipeline before cap enforcement, in source order:
pool replenishment; community-studio eligibility unlock (clamped by the
remaining pool); organic Binomial draws from each pool, decrementing it;
the referral Poisson count capped by the total remaining supply; the
baseline trickle (skipped in the "compartment" join model) allocated
greedily no-access → community-eligible → home; referral allocation with the
same greedy priority; and the month's join total
`class + organic + baseline + referral + workshops` (line 1528-1534). -/

def pool_month_update (p : MonthParams) (d : DrawOracles) (s : PoolState) :
    PreCapState :=
  let na1 := s.no_access + p.inflow_na
  let h1 := s.home_studio + p.inflow_home
  let cs1 := s.community_studio + p.inflow_cs
  let u := min (compute_cs_unlock_share p.class_term_months
    p.cs_unlock_fraction p.month cs1) cs1
  let cs2 := cs1 - u
  let el1 := s.cs_eligible + u
  let jna := d.organic_na na1
  let jh := d.organic_home h1
  let jcs := d.organic_cs el1
  let na2 := na1 - jna
  let h2 := h1 - jh
  let el2 := el1 - jcs
  let r := min d.referral (na2 + h2 + el2)
  let bd := min d.baseline (na2 + h2 + el2)
  let bn_na := if p.compartment then 0 else min bd na2
  let na3 := na2 - bn_na
  let bn_cs := if p.compartment then 0 else min (bd - bn_na) el2
  let el3 := el2 - bn_cs
  let bn_home := if p.compartment then 0 else min (bd - bn_na - bn_cs) h2
  let h3 := h2 - bn_home
  let ref_na := min r na3
  let na4 := na3 - ref_na
  let ref_cs := min (r - ref_na) el3
  let el4 := el3 - ref_cs
  let ref_home := min (r - ref_na - ref_cs) h3
  let h4 := h3 - ref_home
  { pool_na := na4, pool_home := h4, pool_cs := cs2, cs_eligible := el4,
    class_joins := d.class_conversions,
    org_na := jna, org_home := jh, org_cs := jcs,
    bn_na := bn_na, bn_home := bn_home, bn_cs := bn_cs,
    ref_na := ref_na, ref_home := ref_home, ref_cs := ref_cs,
    workshops := d.workshops,
    joins := d.class_conversions + (jna + jh + jcs)
      + (bn_na + bn_cs + bn_home) + r + d.workshops }

/-- Onboarding-cap enforcement (lines 1538-1588): when the cap is set and
exceeded, class conversions soak the overflow first (and are not returned),
the rest is rolled back across the pools proportionally to their total
takes (`int(round(overflow * (take/total_drawn)))` for no-access and home —
the float product modelled as the exact rational — remainder to
community), returned counts are credited back to the pools, per-source takes
are reduced referral-first, then baseline, then organic, the join total is
recomputed, and finally clamped at the cap. -/

def apply_onboarding_cap (cap : Option ℤ) (st : PreCapState) : PreCapState :=
  match cap with
  | none => st
  | some c =>
    if c < st.joins then
      let overflow := st.joins - c
      let rb_classes := min overflow st.class_joins
      let class2 := st.class_joins - rb_classes
      let overflow2 := overflow - rb_classes
      let take_na := st.org_na + st.bn_na + st.ref_na
      let take_home := st.org_home + st.bn_home + st.ref_home
      let take_cs := st.org_cs + st.bn_cs + st.ref_cs
      let total_drawn := max 1 (take_na + take_home + take_cs)
      let rb_na := pyRoundFrac (overflow2 * take_na) total_drawn
      let rb_home := pyRoundFrac (overflow2 * take_home) total_drawn
      let rb_cs := overflow2 - rb_na - rb_home
      let gr_na := min rb_na st.ref_na
      let gb_na := min (rb_na - gr_na) st.bn_na
      let go_na := rb_na - gr_na - gb_na
      let gr_home := min rb_home st.ref_home
      let gb_home := min (rb_home - gr_home) st.bn_home
      let go_home := rb_home - gr_home - gb_home
      let gr_cs := min rb_cs st.ref_cs
      let gb_cs := min (rb_cs - gr_cs) st.bn_cs
      let go_cs := rb_cs - gr_cs - gb_cs
      let joins3 := class2
        + ((st.org_na - go_na) + (st.org_home - go_home) + (st.org_cs - go_cs))
        + ((st.bn_na - gb_na) + (st.bn_home - gb_home) + (st.bn_cs - gb_cs))
        + ((st.ref_na - gr_na) + (st.ref_home - gr_home) + (st.ref_cs - gr_cs))
      { pool_na := st.pool_na + rb_na,
        pool_home := st.pool_home + rb_home,
        pool_cs := st.pool_cs,
        cs_eligible := st.cs_eligible + rb_cs,
        class_joins := class2,
        org_na := st.org_na - go_na,
        org_home := st.org_home - go_home,
        org_cs := st.org_cs - go_cs,
        bn_na := st.bn_na - gb_na,
        bn_home := st.bn_home - gb_home,
        bn_cs := st.bn_cs - gb_cs,
        ref_na := st.ref_na - gr_na,
        ref_home := st.ref_home - gr_home,
        ref_cs := st.ref_cs - gr_cs,
        workshops := st.workshops,
        joins := min joins3 c }
    else st

/-- One month of pool/join evolution including cap enforcement. -/

def month_joins_update (p : MonthParams) (d : DrawOracles) (s : PoolState) :
    PreCapState :=
  apply_onboarding_cap p.max_onboardings (pool_month_update p d s)

/-- The clamp `joins = min(joins, MAX_MEMBERS - len(active_members))` (line 1593). -/

def realized_joins (maxMembers active joins : ℤ) : ℤ :=
  min joins (maxMembers - active)

/-- Pools at the start of the C6 failing month: 4 no-access and 4
home-studio prospects, empty community pools. -/

def c6_pools : PoolState :=
  { no_access := 4, home_studio := 4, community_studio := 0, cs_eligible := 0 }

/-- Parameters of the C6 failing month: compartment join model, onboarding
cap 5, no inflow, month 1 (no unlock). -/

def c6_params : MonthParams :=
  { compartment := true, class_term_months := 3, cs_unlock_fraction := 1/4,
    month := 1, inflow_na := 0, inflow_home := 0, inflow_cs := 0,
    max_onboardings := some 5 }

/-- Draws of the C6 failing month: the organic Binomial draws return the
full pool (4 from no-access, 4 from home-studio, 0 from the empty eligible
pool); no referral, baseline, workshop or class joins. -/

def c6_draws : DrawOracles :=
  { organic_na := fun n => min 4 (max 0 n),
    organic_home := fun n => min 4 (max 0 n),
    organic_cs := fun _ => 0,
    referral := 0, baseline := 0, workshops := 0, class_conversions := 0 }

/-- A concrete over-cap month state for the C5 witness: 10 joins against a
cap of 5, drawn from classes (2), organic (3+1+1), baseline (1) and
referrals (1+1). -/

def onboardWitnessState : PreCapState :=
  { pool_na := 10, pool_home := 10, pool_cs := 10, cs_eligible := 5,
    class_joins := 2, org_na := 3, org_home := 1, org_cs := 1,
    bn_na := 1, bn_home := 0, bn_cs := 0,
    ref_na := 1, ref_home := 1, ref_cs := 0,
    workshops := 0, joins := 10 }

/-! ## Monte Carlo driver: per-trial seeding and global reset
(`_core_simulation_and_reports`, lines 1048-1071) -/

/-- One station's configuration (`STATIONS[name]`). -/

structure StationCfg where
  capacity : ℤ
  alpha : ℚ
  kappa : ℚ

/-- The five mutable module globals the driver snapshots and restores
around every trial: `STATIONS`, `MAX_MEMBERS`, `CLAY_COGS_MULT`,
`PUGMILL_MAINT_COST_PER_MONTH`, `SLAB_ROLLER_MAINT_COST_PER_MONTH`
(capital-expenditure side effects mutate them mid-trial). -/

structure MutGlobals where
  stations : List (String × StationCfg)
  max_members : ℤ
  clay_cogs_mult : ℚ
  pugmill_maint : ℚ
  slab_maint : ℚ

/-- Lines 1062-1071: before each trial, every one of the five mutable
globals is overwritten with the baseline snapshot (`STATIONS.clear();
STATIONS.update(deepcopy(_BASE_STATIONS))` and plain reassignment for the
scalars); the incoming mutated state is discarded entirely. -/

def reset_globals (base : MutGlobals) (_g : MutGlobals) : MutGlobals :=
  { stations := base.stations, max_members := base.max_members,
    clay_cogs_mult := base.clay_cogs_mult,
    pugmill_maint := base.pugmill_maint, slab_maint := base.slab_maint }

/-- Line 1060: `SeedSequence([RANDOM_SEED, int(fixed_rent),
int(owner_draw), int(scen_index), int(sim)])` — the entropy the trial's RNG
is deterministically derived from. -/

def trial_seed (random_seed rent draw scen_index : ℤ) (sim : ℕ) : List ℤ :=
  [random_seed, rent, draw, scen_index, (sim : ℤ)]

/-- The driver's trial loop (lines 1059 ff.) for one scenario cell,
abstracted over the trial body `runTrial`, which consumes the seed entropy
and the (reset) mutable globals and returns its result rows and the
possibly-mutated globals.  `sim` is the next trial index, `n` the number of
trials still to run, `g` the current mutable-global state. -/

def trial_loop {Row : Type} (runTrial : List ℤ → MutGlobals → Row × MutGlobals)
    (random_seed rent draw scen_index : ℤ) (base : MutGlobals) :
    ℕ → ℕ → MutGlobals → List Row
  | _, 0, _ => []
  | sim, n + 1, g =>
    let g1 := reset_globals base g
    let out := runTrial (trial_seed random_seed rent draw scen_index sim) g1
    out.1 :: trial_loop runTrial random_seed rent draw scen_index base
      (sim + 1) n out.2

/-- Modelled from the spec: the per-trial results the driver is required to
produce — each trial's rows a pure function of the seed tuple and the
baseline snapshot alone ("repeated calls produce byte-identical result rows
for that trial"). -/

def spec_trial_rows {Row : Type}
    (runTrial : List ℤ → MutGlobals → Row × MutGlobals)
    (random_seed rent draw scen_index : ℤ) (base : MutGlobals) :
    ℕ → ℕ → List Row
  | _, 0 => []
  | sim, n + 1 =>
    (runTrial (trial_seed random_seed rent draw scen_index sim) base).1 ::
      spec_trial_rows runTrial random_seed rent draw scen_index base
        (sim + 1) n

/-! ## Theorems -/

/-- C1: for `principal > 0`, `total_months > 0` and an interest-only period
within the term, every scheduled month strictly before `io_months` pays the
interest-only amount `principal * (annual_rate/12)`; every scheduled month in
`[io_months, term_years*12)` pays the constant annuity payment over the
remaining `term_years*12 - io_months` periods (equal to
`principal / remaining` when the rate is zero); every month at or past
`term_years*12` pays `0`; and when `annual_rate = 0` the interest-only
payment is `0`. -/
theorem build_loan_schedule_spec (principal annual_rate : ℚ)
    (term_years io_months total_months : ℤ)
    (hp : 0 < principal) (hT : 0 < total_months)
    (hio0 : 0 ≤ io_months) (hioN : io_months ≤ term_years * 12) :
    (∀ m : ℤ, 0 ≤ m → m < io_months → m < total_months →
      build_loan_schedule principal annual_rate term_years io_months
          total_months m = principal * (annual_rate / 12)) ∧
    (∀ m : ℤ, io_months ≤ m → m < term_years * 12 → m < total_months →
      build_loan_schedule principal annual_rate term_years io_months
          total_months m =
        (if annual_rate / 12 = 0 then
            principal / ((term_years * 12 - io_months : ℤ) : ℚ)
          else principal * ((annual_rate / 12) /
            (1 - (1 + annual_rate / 12) ^ (-(term_years * 12 - io_months)))))) ∧
    (∀ m : ℤ, term_years * 12 ≤ m →
      build_loan_schedule principal annual_rate term_years io_months
          total_months m = 0) ∧
    (annual_rate = 0 → ∀ m : ℤ, 0 ≤ m → m < io_months → m < total_months →
      build_loan_schedule principal annual_rate term_years io_months
          total_months m = 0) := by
  have hne : ¬ (principal ≤ 0 ∨ total_months ≤ 0) := by
    push_neg
    exact ⟨hp, hT⟩
  refine ⟨?_, ?_, ?_, ?_⟩
  · intro m hm0 hmio hmT
    simp only [build_loan_schedule, hne, if_false]
    have hio_m : min (max 0 io_months) (term_years * 12) = io_months := by
      omega
    rw [hio_m]
    have h1 : 0 ≤ m ∧ m < min io_months total_months := by
      constructor
      · exact hm0
      · omega
    rw [if_pos h1]
    by_cases hr : annual_rate / 12 = 0
    · rw [if_pos hr, hr, mul_zero]
    · rw [if_neg hr]
  · intro m hmio hmterm hmT
    simp only [build_loan_schedule, hne, if_false]
    have hio_m : min (max 0 io_months) (term_years * 12) = io_months := by
      omega
    rw [hio_m]
    have hiolen : min io_months total_months = io_months := by
      omega
    rw [hiolen]
    have h1 : ¬ (0 ≤ m ∧ m < io_months) := by
      omega
    rw [if_neg h1]
    have h2 : 0 < term_years * 12 - io_months ∧ 0 ≤ m ∧ io_months ≤ m ∧
        m < min total_months (io_months + (term_years * 12 - io_months)) := by
      omega
    rw [if_pos h2]
  · intro m hm
    simp only [build_loan_schedule, hne, if_false]
    have h1 : ¬ (0 ≤ m ∧ m < min (min (max 0 io_months) (term_years * 12))
        total_months) := by
      omega
    rw [if_neg h1]
    have h2 : ¬ (0 < term_years * 12 - min (min (max 0 io_months)
          (term_years * 12)) total_months ∧ 0 ≤ m ∧
        min (min (max 0 io_months) (term_years * 12)) total_months ≤ m ∧
        m < min total_months
          (min (min (max 0 io_months) (term_years * 12)) total_months +
            (term_years * 12 -
              min (min (max 0 io_months) (term_years * 12)) total_months))) := by
      omega
    rw [if_neg h2]
  · intro hr0 m hm0 hmio hmT
    simp only [build_loan_schedule, hne, if_false]
    have hio_m : min (max 0 io_months) (term_years * 12) = io_months := by
      omega
    rw [hio_m]
    have h1 : 0 ≤ m ∧ m < min io_months total_months := by
      omega
    rw [if_pos h1]
    have : annual_rate / 12 = 0 := by
      rw [hr0]
      norm_num
    rw [if_pos this]

/-- Witness for C1 at `principal = 1000`, `annual_rate = 6/100`,
`term_years = 10`, `io_months = 6`, `total_months = 120`. -/
theorem build_loan_schedule_spec_witness :
    (0 < (1000 : ℚ)) ∧ (0 < (120 : ℤ)) ∧ (0 ≤ (6 : ℤ)) ∧
      ((6 : ℤ) ≤ 10 * 12) ∧
    ((∀ m : ℤ, 0 ≤ m → m < 6 → m < 120 →
      build_loan_schedule 1000 (6/100) 10 6 120 m = 1000 * ((6/100) / 12)) ∧
    (∀ m : ℤ, 6 ≤ m → m < 10 * 12 → m < 120 →
      build_loan_schedule 1000 (6/100) 10 6 120 m =
        (if (6/100 : ℚ) / 12 = 0 then 1000 / (((10 * 12 - 6 : ℤ)) : ℚ)
          else 1000 * (((6/100 : ℚ) / 12) /
            (1 - (1 + (6/100 : ℚ) / 12) ^ (-(10 * 12 - 6 : ℤ)))))) ∧
    (∀ m : ℤ, 10 * 12 ≤ m →
      build_loan_schedule 1000 (6/100) 10 6 120 m = 0) ∧
    ((6 / 100 : ℚ) = 0 → ∀ m : ℤ, 0 ≤ m → m < 6 → m < 120 →
      build_loan_schedule 1000 (6/100) 10 6 120 m = 0)) :=
  ⟨by norm_num, by norm_num, by norm_num, by norm_num,
    build_loan_schedule_spec 1000 (6/100) 10 6 120 (by norm_num) (by norm_num)
      (by norm_num) (by norm_num)⟩

/-- C8: adding a staged tranche with draw month `d ≥ 0` leaves every month up
to and including `d` unchanged (payments never start in the draw month), adds
the tranche's freshly built schedule shifted to start at `d + 1` for months
in `[d+1, total_months)`, leaves months at or past the horizon unchanged, and
a non-positive principal leaves the schedule unchanged everywhere. -/
theorem add_staged_tranche_spec (arr : ℤ → ℚ) (start_month : ℤ)
    (principal annual_rate : ℚ) (amort_years io_months total_months : ℤ)
    (hd : 0 ≤ start_month) :
    (principal ≤ 0 →
      add_staged_tranche_into_array arr start_month principal annual_rate
        amort_years io_months total_months = arr) ∧
    (0 < principal →
      (∀ m : ℤ, m ≤ start_month →
        add_staged_tranche_into_array arr start_month principal annual_rate
          amort_years io_months total_months m = arr m) ∧
      (∀ m : ℤ, total_months ≤ m →
        add_staged_tranche_into_array arr start_month principal annual_rate
          amort_years io_months total_months m = arr m) ∧
      (∀ m : ℤ, start_month + 1 ≤ m → m < total_months →
        add_staged_tranche_into_array arr start_month principal annual_rate
          amort_years io_months total_months m =
          arr m + build_loan_schedule principal annual_rate amort_years
            io_months total_months (m - (start_month + 1)))) := by
  constructor
  · intro hple
    simp only [add_staged_tranche_into_array, if_pos hple]
  · intro hppos
    have hnle : ¬ principal ≤ 0 := not_le.mpr hppos
    refine ⟨?_, ?_, ?_⟩
    · intro m hm
      simp only [add_staged_tranche_into_array, if_neg hnle]
      have h1 : ¬ (min total_months (max 0 (start_month + 1)) ≤ m ∧
          m < min total_months
            (min total_months (max 0 (start_month + 1)) + max 0 total_months)) := by
        omega
      rw [if_neg h1]
    · intro m hm
      simp only [add_staged_tranche_into_array, if_neg hnle]
      have h1 : ¬ (min total_months (max 0 (start_month + 1)) ≤ m ∧
          m < min total_months
            (min total_months (max 0 (start_month + 1)) + max 0 total_months)) := by
        omega
      rw [if_neg h1]
    · intro m hm1 hm2
      simp only [add_staged_tranche_into_array, if_neg hnle]
      have hstart : min total_months (max 0 (start_month + 1)) =
          start_month + 1 := by
        omega
      rw [hstart]
      have h1 : start_month + 1 ≤ m ∧
          m < min total_months (start_month + 1 + max 0 total_months) := by
        omega
      rw [if_pos h1]

/-- Witness for C8 at the zero array, draw month `2`, `principal = 500`,
annuity data `(rate 8/100, 5 years, 0 IO months)` on a 60-month horizon. -/
theorem add_staged_tranche_spec_witness :
    (0 ≤ (2 : ℤ)) ∧
    (((500 : ℚ) ≤ 0 →
      add_staged_tranche_into_array (fun _ => 0) 2 500 (8/100) 5 0 60 =
        (fun _ => 0)) ∧
    (0 < (500 : ℚ) →
      (∀ m : ℤ, m ≤ 2 →
        add_staged_tranche_into_array (fun _ => 0) 2 500 (8/100) 5 0 60 m = 0) ∧
      (∀ m : ℤ, 60 ≤ m →
        add_staged_tranche_into_array (fun _ => 0) 2 500 (8/100) 5 0 60 m = 0) ∧
      (∀ m : ℤ, 2 + 1 ≤ m → m < 60 →
        add_staged_tranche_into_array (fun _ => 0) 2 500 (8/100) 5 0 60 m =
          0 + build_loan_schedule 500 (8/100) 5 0 60 (m - (2 + 1))))) :=
  ⟨by norm_num,
    add_staged_tranche_spec (fun _ => 0) 2 500 (8/100) 5 0 60 (by norm_num)⟩

/-- C9: for every member count, soft cap and exponent `beta > 0`, the capacity
damping multiplier lies in `[0, 1]` and equals exactly `1` when there are no
active members. -/
theorem capacity_damping_spec (active : ℕ) (softCap : ℚ) (beta : ℤ)
    (hb : 0 < beta) :
    (0 ≤ capacity_damping active softCap beta ∧
      capacity_damping active softCap beta ≤ 1) ∧
    (active = 0 → capacity_damping active softCap beta = 1) := by
  constructor
  · constructor
    · exact le_max_left 0 _
    · apply max_le
      · norm_num
      · have hden : (0 : ℚ) < max 1 softCap := lt_of_lt_of_le one_pos (le_max_left 1 softCap)
        have hratio : (0 : ℚ) ≤ (active : ℚ) / max 1 softCap :=
          div_nonneg (Nat.cast_nonneg active) (le_of_lt hden)
        have : (0 : ℚ) ≤ ((active : ℚ) / max 1 softCap) ^ beta :=
          zpow_nonneg hratio beta
        linarith
  · intro h0
    subst h0
    have : ((0 : ℕ) : ℚ) / max 1 softCap = 0 := by
      simp
    rw [capacity_damping, this, zero_zpow beta (by omega)]
    norm_num

/-- Witness for C9 at `active = 0`, `softCap = 50`, `beta = 4`. -/
theorem capacity_damping_spec_witness :
    (0 < (4 : ℤ)) ∧
    ((0 ≤ capacity_damping 0 50 4 ∧ capacity_damping 0 50 4 ≤ 1) ∧
      (0 = 0 → capacity_damping 0 50 4 = 1)) :=
  ⟨by norm_num, capacity_damping_spec 0 50 4 (by norm_num)⟩

/-- The tier loop is the identity when no clay remains (`remaining ≤ 0`):
every band is `0` and the early exit fires at the first tier. -/
theorem firingLoop_of_nonpos (l : List FiringTier) (total remaining prev_cut : ℚ)
    (h : remaining ≤ 0) : firingLoop l total remaining prev_cut = (total, remaining) := by
  cases l with
  | nil => rfl
  | cons t rest =>
    obtain ⟨cutOpt, rate⟩ := t
    cases cutOpt with
    | some cut =>
      have hband : max 0 (min remaining (cut - prev_cut)) = 0 :=
        max_eq_left (le_trans (min_le_left _ _) h)
      simp only [firingLoop, hband, lt_irrefl, if_false]
      have : remaining ≤ firingEps := le_trans h (by norm_num [firingEps])
      rw [if_pos this]
    | none =>
      have hband : max 0 remaining = 0 := max_eq_left h
      simp only [firingLoop, hband, lt_irrefl, if_false]

/-- The `if 0 < band` guards in the tier loop are redundant: charging and
consuming a zero band is a no-op. -/
theorem firing_if_total (total band rate : ℚ) (hb : 0 ≤ band) :
    (if 0 < band then total + band * rate else total) = total + band * rate := by
  split_ifs with h
  · rfl
  · have : band = 0 := le_antisymm (not_lt.mp h) hb
    rw [this, zero_mul, add_zero]

theorem firing_if_rem (remaining band : ℚ) (hb : 0 ≤ band) :
    (if 0 < band then remaining - band else remaining) = remaining - band := by
  split_ifs with h
  · rfl
  · have : band = 0 := le_antisymm (not_lt.mp h) hb
    rw [this, sub_zero]

/-- The running total of the tier loop never decreases when all rates are
non-negative. -/
theorem firingLoop_total_ge (l : List FiringTier) :
    (∀ t ∈ l, 0 ≤ t.rate) → ∀ (total remaining prev_cut : ℚ),
    total ≤ (firingLoop l total remaining prev_cut).1 := by
  induction l with
  | nil => intro _ total remaining prev_cut; exact le_refl _
  | cons t rest ih =>
    intro hr total remaining prev_cut
    obtain ⟨cutOpt, rate⟩ := t
    have hrate : (0 : ℚ) ≤ rate := hr _ (List.mem_cons_self _ _)
    have hrest : ∀ t ∈ rest, 0 ≤ t.rate := fun t ht => hr t (List.mem_cons_of_mem _ ht)
    cases cutOpt with
    | some cut =>
      simp only [firingLoop]
      rw [firing_if_total _ _ _ (le_max_left _ _),
        firing_if_rem _ _ (le_max_left _ _)]
      have hstep : total ≤ total + max 0 (min remaining (cut - prev_cut)) * rate := by
        have := mul_nonneg (le_max_left 0 (min remaining (cut - prev_cut))) hrate
        linarith
      split_ifs
      · exact hstep
      · exact le_trans hstep (ih hrest _ _ _)
    | none =>
      simp only [firingLoop]
      rw [firing_if_total _ _ _ (le_max_left _ _)]
      have := mul_nonneg (le_max_left (0:ℚ) remaining) hrate
      show total ≤ total + max 0 remaining * rate
      linarith

/-- The final top-up step never decreases the fee when the last rate is
non-negative. -/
theorem firingFinish_ge (lr : ℚ) (hlr : 0 ≤ lr) (res : ℚ × ℚ) :
    res.1 ≤ firingFinish lr res := by
  unfold firingFinish
  split_ifs with h
  · have heps : (0 : ℚ) < firingEps := by norm_num [firingEps]
    nlinarith
  · exact le_refl _

/-- Monotonicity of the final top-up in both the accumulated total and the
leftover clay. -/
theorem firingFinish_mono (lr : ℚ) (hlr : 0 ≤ lr) {t1 t2 r1 r2 : ℚ}
    (ht : t1 ≤ t2) (hr : r1 ≤ r2) :
    firingFinish lr (t1, r1) ≤ firingFinish lr (t2, r2) := by
  unfold firingFinish
  simp only []
  split_ifs with h1 h2 h2
  · exact add_le_add ht (mul_le_mul_of_nonneg_right hr hlr)
  · linarith
  · have heps : (0 : ℚ) < firingEps := by norm_num [firingEps]
    nlinarith
  · exact ht

/-- Consuming a band is monotone: a larger remaining quantity leaves a larger
remainder. -/
theorem sub_band_mono (w : ℚ) {r1 r2 : ℚ} (h : r1 ≤ r2) :
    r1 - max 0 (min r1 w) ≤ r2 - max 0 (min r2 w) := by
  rcases max_cases (0 : ℚ) (min r1 w) with ⟨e1, le1⟩ | ⟨e1, lt1⟩ <;>
    rcases max_cases (0 : ℚ) (min r2 w) with ⟨e2, le2⟩ | ⟨e2, lt2⟩ <;>
      rcases min_cases r1 w with ⟨f1, g1⟩ | ⟨f1, g1⟩ <;>
        rcases min_cases r2 w with ⟨f2, g2⟩ | ⟨f2, g2⟩ <;>
          rw [e1, e2] <;> linarith

/-- The band charged is monotone in the remaining quantity. -/
theorem band_mono (w : ℚ) {r1 r2 : ℚ} (h : r1 ≤ r2) :
    max 0 (min r1 w) ≤ max 0 (min r2 w) :=
  max_le_max (le_refl 0) (min_le_min h (le_refl w))

/-- Core monotonicity: running the tier loop followed by the final top-up is
monotone in the starting total and the starting clay quantity, for any
schedule with non-negative rates and non-negative last rate. -/
theorem firingLoop_finish_mono (lr : ℚ) (hlr : 0 ≤ lr) :
    ∀ (l : List FiringTier), (∀ t ∈ l, 0 ≤ t.rate) →
    ∀ (prev_cut t1 t2 r1 r2 : ℚ), t1 ≤ t2 → r1 ≤ r2 →
    firingFinish lr (firingLoop l t1 r1 prev_cut) ≤
      firingFinish lr (firingLoop l t2 r2 prev_cut) := by
  intro l
  induction l with
  | nil =>
    intro _ prev_cut t1 t2 r1 r2 ht hr
    exact firingFinish_mono lr hlr ht hr
  | cons t rest ih =>
    intro hrates prev_cut t1 t2 r1 r2 ht hr
    obtain ⟨cutOpt, rate⟩ := t
    have hrate : (0 : ℚ) ≤ rate := hrates _ (List.mem_cons_self _ _)
    have hrest : ∀ t ∈ rest, 0 ≤ t.rate :=
      fun t htm => hrates t (List.mem_cons_of_mem _ htm)
    cases cutOpt with
    | none =>
      simp only [firingLoop]
      rw [firing_if_total _ _ _ (le_max_left _ _),
        firing_if_rem _ _ (le_max_left _ _),
        firing_if_total _ _ _ (le_max_left _ _),
        firing_if_rem _ _ (le_max_left _ _)]
      refine firingFinish_mono lr hlr ?_ ?_
      · exact add_le_add ht (mul_le_mul_of_nonneg_right
          (max_le_max (le_refl 0) hr) hrate)
      · have h1 : r1 - max 0 r1 ≤ r2 - max 0 r2 := by
          rcases max_cases (0:ℚ) r1 with ⟨e1, le1⟩ | ⟨e1, lt1⟩ <;>
            rcases max_cases (0:ℚ) r2 with ⟨e2, le2⟩ | ⟨e2, lt2⟩ <;>
              rw [e1, e2] <;> linarith
        exact h1
    | some cut =>
      simp only [firingLoop]
      rw [firing_if_total _ _ _ (le_max_left _ _),
        firing_if_rem _ _ (le_max_left _ _),
        firing_if_total _ _ _ (le_max_left _ _),
        firing_if_rem _ _ (le_max_left _ _)]
      set b1 := max 0 (min r1 (cut - prev_cut)) with hb1def
      set b2 := max 0 (min r2 (cut - prev_cut)) with hb2def
      have htot : t1 + b1 * rate ≤ t2 + b2 * rate :=
        add_le_add ht (mul_le_mul_of_nonneg_right (band_mono _ hr) hrate)
      have hrem : r1 - b1 ≤ r2 - b2 := sub_band_mono _ hr
      by_cases hbr1 : r1 - b1 ≤ firingEps <;> by_cases hbr2 : r2 - b2 ≤ firingEps
      · rw [if_pos hbr1, if_pos hbr2]
        exact firingFinish_mono lr hlr htot hrem
      · rw [if_pos hbr1, if_neg hbr2]
        have hl : firingFinish lr (t1 + b1 * rate, r1 - b1) = t1 + b1 * rate := by
          unfold firingFinish
          rw [if_neg (not_lt.mpr hbr1)]
        rw [hl]
        exact le_trans htot (le_trans
          (firingLoop_total_ge rest hrest _ _ _)
          (firingFinish_ge lr hlr _))
      · exact absurd (le_trans hrem hbr2) hbr1
      · rw [if_neg hbr1, if_neg hbr2]
        exact ih hrest cut _ _ _ _ htot hrem

/-- The last tier rate of a schedule with non-negative rates is non-negative. -/
theorem lastRate_nonneg : ∀ (l : List FiringTier),
    (∀ t ∈ l, 0 ≤ t.rate) → 0 ≤ lastRate l
  | [] => fun _ => le_refl 0
  | [t] => fun h => h t (List.mem_singleton_self t)
  | _ :: u :: rest => fun h =>
      lastRate_nonneg (u :: rest) (fun t ht => h t (List.mem_cons_of_mem _ ht))

/-- C10: `compute_firing_fee` is a total function of the clay quantity, and
for every tier schedule with non-negative rates it returns `0` for every
non-positive quantity, always returns a non-negative total, and is
monotonically non-decreasing in the clay quantity. -/
theorem compute_firing_fee_spec (sched : List FiringTier)
    (hr : ∀ t ∈ sched, 0 ≤ t.rate) :
    (∀ clay_lbs : ℚ, clay_lbs ≤ 0 → compute_firing_fee sched clay_lbs = 0) ∧
    (∀ clay_lbs : ℚ, 0 ≤ compute_firing_fee sched clay_lbs) ∧
    (∀ x y : ℚ, x ≤ y →
      compute_firing_fee sched x ≤ compute_firing_fee sched y) := by
  have hs : ∀ t ∈ (if sched.isEmpty then defaultFiringSchedule else sched),
      0 ≤ t.rate := by
    split_ifs
    · decide
    · exact hr
  have hlr : 0 ≤ lastRate (if sched.isEmpty then defaultFiringSchedule else sched) :=
    lastRate_nonneg _ hs
  refine ⟨?_, ?_, ?_⟩
  · intro clay hc
    simp only [compute_firing_fee]
    rw [firingLoop_of_nonpos _ _ _ _ hc]
    unfold firingFinish
    have : ¬ firingEps < clay := not_lt.mpr (le_trans hc (by norm_num [firingEps]))
    rw [if_neg this]
  · intro clay
    simp only [compute_firing_fee]
    exact le_trans (firingLoop_total_ge _ hs 0 clay 0)
      (firingFinish_ge _ hlr _)
  · intro x y hxy
    simp only [compute_firing_fee]
    exact firingLoop_finish_mono _ hlr _ hs 0 0 0 x y (le_refl 0) hxy

/-- Witness for C10 at the default tier schedule, evaluating the fee at
concrete quantities `-2`, `30` and `50`. -/
theorem compute_firing_fee_spec_witness :
    (∀ t ∈ defaultFiringSchedule, 0 ≤ t.rate) ∧
    ((∀ clay_lbs : ℚ, clay_lbs ≤ 0 →
        compute_firing_fee defaultFiringSchedule clay_lbs = 0) ∧
      (∀ clay_lbs : ℚ, 0 ≤ compute_firing_fee defaultFiringSchedule clay_lbs) ∧
      (∀ x y : ℚ, x ≤ y → compute_firing_fee defaultFiringSchedule x ≤
        compute_firing_fee defaultFiringSchedule y)) ∧
    compute_firing_fee defaultFiringSchedule (-2) = 0 ∧
    compute_firing_fee defaultFiringSchedule 30 = 100 ∧
    compute_firing_fee defaultFiringSchedule 50 = 190 :=
  ⟨by decide, compute_firing_fee_spec defaultFiringSchedule (by decide),
    by norm_num [compute_firing_fee, defaultFiringSchedule, firingLoop,
      firingFinish, firingEps, lastRate],
    by norm_num [compute_firing_fee, defaultFiringSchedule, firingLoop,
      firingFinish, firingEps, lastRate],
    by norm_num [compute_firing_fee, defaultFiringSchedule, firingLoop,
      firingFinish, firingEps, lastRate]⟩

/-- C4 counterexample: for a member of tenure `0` whose archetype base churn
rate is `0.9`, in a stressed month with downturn churn multiplier `1/2` and
all other multipliers neutral, the code's leave probability is
`clip(min(0.99, 1.62) * 0.5) = 0.495`, but the claim's formula
`clip(base * 1.8 * 0.5) = clip(0.81) = 0.81`: the tenure-tier product is
clamped at `0.99` inside `month_churn_prob` before the remaining multipliers,
which the claim omits. -/
theorem p_leave_claim_counterexample :
    p_leave (9/10) (1/2) 1 (1/4) 1 0 50 0 ≠
      clip_churn ((9/10) * (9/5) * (1/2) * 1 *
        (1 + (1/4) * util_over 0 50) * 1) := by
  norm_num [p_leave, month_churn_prob, clip_churn, util_over, min_def, max_def]

/-- C4 (amended): the leave probability is the tiered base rate —
`min(0.99, base*1.8)` for tenure ≤ 2 (the inner clamp the original claim
omitted), `base` for tenure 3-6, `base*0.7` for tenure ≥ 7 — times the
downturn, price-elasticity, crowding and seasonal multipliers, clipped into
`[0, 0.99]`; the result always lies in `[0, 0.99]`; and whenever
`base * 1.8 ≤ 0.99` (true of every built-in archetype rate) the tenure ≤ 2
case coincides with the claim's unclamped product. -/
theorem p_leave_spec (base churn_mult price_mult_churn uplift scm : ℚ)
    (active : ℕ) (softCap : ℚ) (tenure : ℤ) :
    (0 ≤ p_leave base churn_mult price_mult_churn uplift scm active softCap tenure ∧
      p_leave base churn_mult price_mult_churn uplift scm active softCap tenure ≤ 99/100) ∧
    (tenure ≤ 2 →
      p_leave base churn_mult price_mult_churn uplift scm active softCap tenure =
        clip_churn (min (99/100) (base * (9/5)) * churn_mult * price_mult_churn *
          (1 + uplift * util_over active softCap) * scm)) ∧
    (3 ≤ tenure → tenure ≤ 6 →
      p_leave base churn_mult price_mult_churn uplift scm active softCap tenure =
        clip_churn (base * churn_mult * price_mult_churn *
          (1 + uplift * util_over active softCap) * scm)) ∧
    (7 ≤ tenure →
      p_leave base churn_mult price_mult_churn uplift scm active softCap tenure =
        clip_churn (base * (7/10) * churn_mult * price_mult_churn *
          (1 + uplift * util_over active softCap) * scm)) ∧
    (tenure ≤ 2 → base * (9/5) ≤ 99/100 →
      p_leave base churn_mult price_mult_churn uplift scm active softCap tenure =
        clip_churn (base * (9/5) * churn_mult * price_mult_churn *
          (1 + uplift * util_over active softCap) * scm)) := by
  refine ⟨⟨?_, ?_⟩, ?_, ?_, ?_, ?_⟩
  · exact le_min (le_max_right _ 0) (by norm_num)
  · exact min_le_right _ _
  · intro h2
    unfold p_leave month_churn_prob
    rw [if_pos h2]
  · intro h3 h6
    unfold p_leave month_churn_prob
    rw [if_neg (by omega), if_pos h6]
  · intro h7
    unfold p_leave month_churn_prob
    rw [if_neg (by omega), if_neg (by omega)]
  · intro h2 hb
    unfold p_leave month_churn_prob
    rw [if_pos h2, min_eq_right hb]

/-- Witness for C4's amended theorem at the built-in "Seasonal User" rate
`0.049 * 1.9 = 931/10000`, tenure 1, concrete multipliers, plus a concrete
evaluation of the leave probability for a tenure-10 member. -/
theorem p_leave_spec_witness :
    ((0 ≤ p_leave (931/10000) (3/2) (11/10) (1/4) (5/4) 80 50 1 ∧
      p_leave (931/10000) (3/2) (11/10) (1/4) (5/4) 80 50 1 ≤ 99/100) ∧
    ((1 : ℤ) ≤ 2 →
      p_leave (931/10000) (3/2) (11/10) (1/4) (5/4) 80 50 1 =
        clip_churn (min (99/100) ((931/10000) * (9/5)) * (3/2) * (11/10) *
          (1 + (1/4) * util_over 80 50) * (5/4))) ∧
    ((3 : ℤ) ≤ 1 → (1 : ℤ) ≤ 6 →
      p_leave (931/10000) (3/2) (11/10) (1/4) (5/4) 80 50 1 =
        clip_churn ((931/10000) * (3/2) * (11/10) *
          (1 + (1/4) * util_over 80 50) * (5/4))) ∧
    ((7 : ℤ) ≤ 1 →
      p_leave (931/10000) (3/2) (11/10) (1/4) (5/4) 80 50 1 =
        clip_churn ((931/10000) * (7/10) * (3/2) * (11/10) *
          (1 + (1/4) * util_over 80 50) * (5/4))) ∧
    ((1 : ℤ) ≤ 2 → (931/10000 : ℚ) * (9/5) ≤ 99/100 →
      p_leave (931/10000) (3/2) (11/10) (1/4) (5/4) 80 50 1 =
        clip_churn ((931/10000) * (9/5) * (3/2) * (11/10) *
          (1 + (1/4) * util_over 80 50) * (5/4)))) ∧
    p_leave (49/1000) 1 1 0 1 0 50 10 = 343/10000 :=
  ⟨p_leave_spec (931/10000) (3/2) (11/10) (1/4) (5/4) 80 50 1,
    by norm_num [p_leave, month_churn_prob, clip_churn, util_over,
      min_def, max_def]⟩

theorem cfgLookup_append_some {a : List (String × CfgValue)}
    (b : List (String × CfgValue)) {k : String} {v : CfgValue}
    (h : cfgLookup a k = some v) : cfgLookup (a ++ b) k = some v := by
  induction a with
  | nil => simp [cfgLookup] at h
  | cons e rest ih =>
    obtain ⟨k2, w⟩ := e
    simp only [cfgLookup, List.cons_append] at h ⊢
    split_ifs at h ⊢ with hk
    · exact h
    · exact ih h

theorem cfgLookup_append_none {a : List (String × CfgValue)}
    (b : List (String × CfgValue)) {k : String}
    (h : cfgLookup a k = none) : cfgLookup (a ++ b) k = cfgLookup b k := by
  induction a with
  | nil => rfl
  | cons e rest ih =>
    obtain ⟨k2, w⟩ := e
    by_cases hk : k2 = k
    · simp [cfgLookup, hk] at h
    · simp only [cfgLookup, List.cons_append, if_neg hk] at h ⊢
      exact ih h

theorem cfgLookup_set_ne (m : List (String × CfgValue)) {k2 k : String}
    (v : CfgValue) (h : k2 ≠ k) : cfgLookup (cfgSet m k2 v) k = cfgLookup m k := by
  simp [cfgSet, cfgLookup, h]

theorem cfgLookup_set_eq (m : List (String × CfgValue)) (k : String)
    (v : CfgValue) : cfgLookup (cfgSet m k v) k = some v := by
  simp [cfgSet, cfgLookup]

/-- A guard on key `k2` does not disturb any other key. -/
theorem guardKey_lookup_ne (m : List (String × CfgValue)) {k2 k : String}
    (h : k2 ≠ k) : cfgLookup (guardKey m k2) k = cfgLookup m k := by
  unfold guardKey
  rcases hm : cfgLookup m k2 with _ | v
  · exact cfgLookup_set_ne m _ h
  · cases v <;> simp only [] <;>
      first
        | rfl
        | exact cfgLookup_set_ne m _ h

/-- After guarding key `k2`, the value at `k2` is a mapping, provided the
default at `k2` is a mapping. -/
theorem guardKey_isMap (m : List (String × CfgValue)) (k2 : String)
    {e : List (String × CfgValue)}
    (hd : cfgLookup default_cfg k2 = some (.map e)) :
    ∃ e2, cfgLookup (guardKey m k2) k2 = some (.map e2) := by
  unfold guardKey
  rcases hm : cfgLookup m k2 with _ | v
  · refine ⟨e, ?_⟩
    rw [cfgLookup_set_eq, hd]
    rfl
  · cases v <;>
      first
        | exact ⟨_, hm⟩
        | · refine ⟨e, ?_⟩
            rw [cfgLookup_set_eq, hd]
            rfl

/-- Guarding key `k2` when the merged value there is not a mapping restores
exactly the default value at `k2`. -/
theorem guardKey_restores (m : List (String × CfgValue)) (k2 : String)
    {v d : CfgValue} (hm : cfgLookup m k2 = some v) (hv : v.isMap = false)
    (hd : cfgLookup default_cfg k2 = some d) :
    cfgLookup (guardKey m k2) k2 = some d := by
  unfold guardKey
  rw [hm]
  cases v <;> simp [CfgValue.isMap] at hv ⊢ <;>
    rw [cfgLookup_set_eq, hd] <;> rfl

/-- C7 counterexample: `MEMBER_ARCHETYPES` has a mapping-typed default, yet a
scalar override for it survives into the resolved configuration unchanged —
`resolve_cfg` guards only `POOL_BASE_INTENT` and `MARKET_POOLS_INFLOW`, not
every mapping-typed key. -/
theorem resolve_cfg_claim_counterexample :
    (∃ e, cfgLookup default_cfg "MEMBER_ARCHETYPES" = some (CfgValue.map e)) ∧
    cfgLookup (resolve_cfg [("MEMBER_ARCHETYPES", CfgValue.num 5)])
      "MEMBER_ARCHETYPES" = some (CfgValue.num 5) ∧
    (CfgValue.num 5).isMap = false :=
  ⟨⟨_, rfl⟩, rfl, rfl⟩

/-- C7 (amended): `resolve_cfg` protects exactly the two guarded keys
`POOL_BASE_INTENT` and `MARKET_POOLS_INFLOW`: their resolved values are
always mappings, and a non-mapping override for either is discarded in
favour of the default mapping.  Every other overridden key — including other
mapping-typed keys — is shallow-replaced by the override as given, and keys
without an override keep their default value.  (The resolver is a total
function; it cannot raise.) -/
theorem resolve_cfg_spec (user_cfg : List (String × CfgValue)) :
    (∃ e, cfgLookup (resolve_cfg user_cfg) "POOL_BASE_INTENT" =
      some (CfgValue.map e)) ∧
    (∃ e, cfgLookup (resolve_cfg user_cfg) "MARKET_POOLS_INFLOW" =
      some (CfgValue.map e)) ∧
    (∀ v, cfgLookup user_cfg "POOL_BASE_INTENT" = some v → v.isMap = false →
      cfgLookup (resolve_cfg user_cfg) "POOL_BASE_INTENT" =
        cfgLookup default_cfg "POOL_BASE_INTENT") ∧
    (∀ v, cfgLookup user_cfg "MARKET_POOLS_INFLOW" = some v → v.isMap = false →
      cfgLookup (resolve_cfg user_cfg) "MARKET_POOLS_INFLOW" =
        cfgLookup default_cfg "MARKET_POOLS_INFLOW") ∧
    (∀ k v, cfgLookup user_cfg k = some v → k ≠ "POOL_BASE_INTENT" →
      k ≠ "MARKET_POOLS_INFLOW" →
      cfgLookup (resolve_cfg user_cfg) k = some v) ∧
    (∀ k, cfgLookup user_cfg k = none → k ≠ "POOL_BASE_INTENT" →
      k ≠ "MARKET_POOLS_INFLOW" →
      cfgLookup (resolve_cfg user_cfg) k = cfgLookup default_cfg k) := by
  have hPM : ("POOL_BASE_INTENT" : String) ≠ "MARKET_POOLS_INFLOW" := by decide
  by_cases hu : user_cfg.isEmpty
  · have huser : user_cfg = [] := List.isEmpty_iff.mp hu
    subst huser
    have hres : resolve_cfg [] = default_cfg := rfl
    rw [hres]
    refine ⟨⟨_, rfl⟩, ⟨_, rfl⟩, ?_, ?_, ?_, ?_⟩
    · intro v hv
      simp [cfgLookup] at hv
    · intro v hv
      simp [cfgLookup] at hv
    · intro k v hv
      simp [cfgLookup] at hv
    · intro k _ _ _
      rfl
  · have hres : resolve_cfg user_cfg =
        guardKey (guardKey (dictUpdate default_cfg user_cfg)
          "POOL_BASE_INTENT") "MARKET_POOLS_INFLOW" := by
      rw [resolve_cfg, if_neg (by simpa using hu)]
    rw [hres]
    refine ⟨?_, ?_, ?_, ?_, ?_, ?_⟩
    · rw [guardKey_lookup_ne _ (fun h => hPM h.symm)]
      exact guardKey_isMap _ _ rfl
    · exact guardKey_isMap _ _ rfl
    · intro v hv hvm
      rw [guardKey_lookup_ne _ (fun h => hPM h.symm)]
      exact guardKey_restores _ _ (cfgLookup_append_some _ hv) hvm rfl
    · intro v hv hvm
      have hMv : cfgLookup (guardKey (dictUpdate default_cfg user_cfg)
          "POOL_BASE_INTENT") "MARKET_POOLS_INFLOW" = some v := by
        rw [guardKey_lookup_ne _ hPM]
        exact cfgLookup_append_some _ hv
      exact guardKey_restores _ _ hMv hvm rfl
    · intro k v hv hkP hkM
      rw [guardKey_lookup_ne _ (fun h => hkM h.symm),
        guardKey_lookup_ne _ (fun h => hkP h.symm)]
      exact cfgLookup_append_some _ hv
    · intro k hv hkP hkM
      rw [guardKey_lookup_ne _ (fun h => hkM h.symm),
        guardKey_lookup_ne _ (fun h => hkP h.symm)]
      exact cfgLookup_append_none _ hv

/-- Witness for C7's amended theorem: overriding `POOL_BASE_INTENT` with the
scalar `7` and `PRICE` with `190` yields a resolved configuration whose
`POOL_BASE_INTENT` is the default mapping while `PRICE` takes the override. -/
theorem resolve_cfg_spec_witness :
    (∃ e, cfgLookup (resolve_cfg [("POOL_BASE_INTENT", CfgValue.num 7),
        ("PRICE", CfgValue.num 190)]) "POOL_BASE_INTENT" =
      some (CfgValue.map e)) ∧
    cfgLookup (resolve_cfg [("POOL_BASE_INTENT", CfgValue.num 7),
        ("PRICE", CfgValue.num 190)]) "POOL_BASE_INTENT" =
      cfgLookup default_cfg "POOL_BASE_INTENT" ∧
    cfgLookup (resolve_cfg [("POOL_BASE_INTENT", CfgValue.num 7),
        ("PRICE", CfgValue.num 190)]) "PRICE" = some (CfgValue.num 190) :=
  ⟨(resolve_cfg_spec _).1,
    (resolve_cfg_spec _).2.2.1 _ rfl rfl,
    (resolve_cfg_spec _).2.2.2.2.1 "PRICE" (CfgValue.num 190) rfl
      (by decide) (by decide)⟩

/-- C2 counterexample: with retail clay sales the cash balance moves by
`revenue - cash_opex + sales_tax_collected` (here `+65`), not by
`revenue - cash_opex` (`+60`) as the claimed identity requires — the
`+ sales_tax_collected` term of `net_cash_flow` (line 1876) is missing from
the claim, so the claimed identity fails at this input. -/
theorem cash_identity_counterexample :
    (cash_month_step cashCexInput).cash_balance ≠
      cashCexInput.cash_balance + cashCexInput.total_revenue
        - cashCexInput.total_opex_cash
        + (cash_month_step cashCexInput).grant_received
        - (cash_month_step cashCexInput).capex_draw
        + (upfront_proceeds cashCexInput
          + (cash_month_step cashCexInput).tranche_capex
          + (cash_month_step cashCexInput).tranche_opex) := by
  norm_num [cash_month_step, cashCexInput, upfront_proceeds, net_cash_flow,
    cash_after_proceeds, grant_received_amt]

/-- C2 (amended): the exact monthly cash identity of the code is
`cash[t] = cash[t-1] + revenue[t] - cash_opex[t] + sales_tax_collected[t]
+ grant[t] - capex_draw[t] + loan_proceeds[t] - fee_outflow[t]`, where
`loan_proceeds` is the month-0 upfront principal credits plus the staged
tranche draws, and `fee_outflow` is the month-0 cash payment of non-financed
origination fees; no other term changes the cash balance. -/
theorem cash_month_identity (inp : CashMonthInputs)
    (hcd : 0 ≤ inp.capex_draw) :
    (cash_month_step inp).cash_balance =
      inp.cash_balance + inp.total_revenue - inp.total_opex_cash
        + inp.sales_tax_collected
        + (cash_month_step inp).grant_received
        - (cash_month_step inp).capex_draw
        + (upfront_proceeds inp + (cash_month_step inp).tranche_capex
          + (cash_month_step inp).tranche_opex)
        - fee_outflow inp := by
  have h1 : cash_after_proceeds inp =
      inp.cash_balance + upfront_proceeds inp - fee_outflow inp := by
    unfold cash_after_proceeds upfront_proceeds fee_outflow
    by_cases hm : inp.month = 0
    · simp only [hm, if_true, true_and, reduceIte]
      split_ifs <;> ring
    · simp only [hm, if_false, false_and, reduceIte]
      ring
  have h2 : cash_after_capex inp =
      cash_after_proceeds inp - inp.capex_draw := by
    unfold cash_after_capex
    split_ifs with h
    · rfl
    · have : inp.capex_draw = 0 := le_antisymm (not_lt.mp h) hcd
      rw [this, sub_zero]
  unfold cash_month_step
  split_ifs
  · simp only []
    rw [h2, h1]
    unfold net_cash_flow
    ring
  · simp only []
    rw [h1]
    unfold net_cash_flow
    ring

/-- Witness for C2's amended identity at `cashWitnessInput`, together with
the concrete values of both sides. -/
theorem cash_month_identity_witness :
    (0 : ℚ) ≤ cashWitnessInput.capex_draw ∧
    ((cash_month_step cashWitnessInput).cash_balance =
      cashWitnessInput.cash_balance + cashWitnessInput.total_revenue
        - cashWitnessInput.total_opex_cash
        + cashWitnessInput.sales_tax_collected
        + (cash_month_step cashWitnessInput).grant_received
        - (cash_month_step cashWitnessInput).capex_draw
        + (upfront_proceeds cashWitnessInput
          + (cash_month_step cashWitnessInput).tranche_capex
          + (cash_month_step cashWitnessInput).tranche_opex)
        - fee_outflow cashWitnessInput) ∧
    (cash_month_step cashWitnessInput).cash_balance = 12075 :=
  ⟨by norm_num [cashWitnessInput], cash_month_identity _ (by norm_num [cashWitnessInput]),
    by norm_num [cash_month_step, cashWitnessInput, cash_after_capex,
      cash_after_proceeds, capex_tranche_credit, opex_tranche_draw,
      staged_opex_draw, net_cash_flow, grant_received_amt]⟩

/-- C6: evaluation of the month pipeline at the failing input.  With pools
`(4, 4, 0, 0)`, Binomial draws taking all 4 no-access and all 4 home-studio
prospects, no other joins, and onboarding cap 5, the cap rollback computes
`rb_na = rb_home = int(round(3 * 4/8)) = 2` (round half to even) and the
community remainder `rb_cs = 3 - 2 - 2 = -1`, driving the eligible sub-pool
to `-1 < 0` (and conjuring a phantom referral take `ref_cs = 1`), while the
draws themselves respect the Binomial support. -/
theorem pool_negative_eligible_on_cap_rollback :
    (binomial_support c6_draws.organic_na ∧
      binomial_support c6_draws.organic_home ∧
      binomial_support c6_draws.organic_cs) ∧
    (month_joins_update c6_params c6_draws c6_pools).cs_eligible = -1 ∧
    (month_joins_update c6_params c6_draws c6_pools).joins = 5 ∧
    (month_joins_update c6_params c6_draws c6_pools).ref_cs = 1 := by
  refine ⟨⟨?_, ?_, ?_⟩, ?_, ?_, ?_⟩
  · intro n
    simp only [c6_draws]
    omega
  · intro n
    simp only [c6_draws]
    omega
  · intro n
    simp only [c6_draws]
    omega
  · decide
  · decide
  · decide

/-- In the per-pool rollback, the baseline take is only reduced once the
referral take is exhausted. -/
theorem rollback_ref_zero (rb ref bn : ℤ)
    (h : bn - min (rb - min rb ref) bn < bn) : ref - min rb ref = 0 := by
  omega

/-- In the per-pool rollback, the organic take is only reduced once both the
referral and the (non-negative) baseline takes are exhausted. -/
theorem rollback_bn_ref_zero (rb ref bn org : ℤ) (hbn : 0 ≤ bn)
    (h : org - (rb - min rb ref - min (rb - min rb ref) bn) < org) :
    bn - min (rb - min rb ref) bn = 0 ∧ ref - min rb ref = 0 := by
  omega

/-- C5: with an onboarding cap `c` set, the capped month state satisfies:
the recorded join total never exceeds `c` (also after the hard-membership
clamp); a month already within the cap is untouched; class conversions
absorb the overflow first (`min(overflow, class_joins)`, never re-queued);
each pool is credited back exactly the amount by which its three source
takes were reduced (rolled-back draws return to their originating pools);
within each pool the reduction consumes referral takes first, then baseline,
then organic; and the total credited back across pools is exactly the
overflow left after class absorption. -/
theorem onboarding_cap_spec (c : ℤ) (st : PreCapState)
    (hbn_na : 0 ≤ st.bn_na) (hbn_home : 0 ≤ st.bn_home)
    (hbn_cs : 0 ≤ st.bn_cs) :
    (apply_onboarding_cap (some c) st).joins ≤ c ∧
    (∀ maxMembers active : ℤ, realized_joins maxMembers active
      (apply_onboarding_cap (some c) st).joins ≤ c) ∧
    (st.joins ≤ c → apply_onboarding_cap (some c) st = st) ∧
    (c < st.joins → (apply_onboarding_cap (some c) st).class_joins =
      st.class_joins - min (st.joins - c) st.class_joins) ∧
    ((apply_onboarding_cap (some c) st).pool_na - st.pool_na =
      (st.ref_na - (apply_onboarding_cap (some c) st).ref_na)
      + (st.bn_na - (apply_onboarding_cap (some c) st).bn_na)
      + (st.org_na - (apply_onboarding_cap (some c) st).org_na)) ∧
    ((apply_onboarding_cap (some c) st).pool_home - st.pool_home =
      (st.ref_home - (apply_onboarding_cap (some c) st).ref_home)
      + (st.bn_home - (apply_onboarding_cap (some c) st).bn_home)
      + (st.org_home - (apply_onboarding_cap (some c) st).org_home)) ∧
    ((apply_onboarding_cap (some c) st).cs_eligible - st.cs_eligible =
      (st.ref_cs - (apply_onboarding_cap (some c) st).ref_cs)
      + (st.bn_cs - (apply_onboarding_cap (some c) st).bn_cs)
      + (st.org_cs - (apply_onboarding_cap (some c) st).org_cs)) ∧
    ((apply_onboarding_cap (some c) st).bn_na < st.bn_na →
      (apply_onboarding_cap (some c) st).ref_na = 0) ∧
    ((apply_onboarding_cap (some c) st).org_na < st.org_na →
      (apply_onboarding_cap (some c) st).bn_na = 0 ∧
      (apply_onboarding_cap (some c) st).ref_na = 0) ∧
    ((apply_onboarding_cap (some c) st).bn_home < st.bn_home →
      (apply_onboarding_cap (some c) st).ref_home = 0) ∧
    ((apply_onboarding_cap (some c) st).org_home < st.org_home →
      (apply_onboarding_cap (some c) st).bn_home = 0 ∧
      (apply_onboarding_cap (some c) st).ref_home = 0) ∧
    ((apply_onboarding_cap (some c) st).bn_cs < st.bn_cs →
      (apply_onboarding_cap (some c) st).ref_cs = 0) ∧
    ((apply_onboarding_cap (some c) st).org_cs < st.org_cs →
      (apply_onboarding_cap (some c) st).bn_cs = 0 ∧
      (apply_onboarding_cap (some c) st).ref_cs = 0) ∧
    (c < st.joins →
      ((apply_onboarding_cap (some c) st).pool_na - st.pool_na)
      + ((apply_onboarding_cap (some c) st).pool_home - st.pool_home)
      + ((apply_onboarding_cap (some c) st).cs_eligible - st.cs_eligible) =
        (st.joins - c) - (st.class_joins -
          (apply_onboarding_cap (some c) st).class_joins)) := by
  simp only [apply_onboarding_cap]
  by_cases h : c < st.joins
  · rw [if_pos h]
    dsimp only
    refine ⟨?_, ?_, ?_, ?_, ?_, ?_, ?_, ?_, ?_, ?_, ?_, ?_, ?_, ?_⟩
    · omega
    · intro maxMembers active
      unfold realized_joins
      omega
    · intro hc
      omega
    · intro _
      rfl
    · omega
    · omega
    · omega
    · exact fun hh => rollback_ref_zero _ _ _ hh
    · exact fun hh => rollback_bn_ref_zero _ _ _ _ hbn_na hh
    · exact fun hh => rollback_ref_zero _ _ _ hh
    · exact fun hh => rollback_bn_ref_zero _ _ _ _ hbn_home hh
    · exact fun hh => rollback_ref_zero _ _ _ hh
    · exact fun hh => rollback_bn_ref_zero _ _ _ _ hbn_cs hh
    · intro _
      omega
  · rw [if_neg h]
    refine ⟨?_, ?_, ?_, ?_, ?_, ?_, ?_, ?_, ?_, ?_, ?_, ?_, ?_, ?_⟩
    · omega
    · intro maxMembers active
      unfold realized_joins
      omega
    · intro _
      rfl
    · intro hc
      omega
    · omega
    · omega
    · omega
    · omega
    · omega
    · omega
    · omega
    · omega
    · omega
    · intro hc
      omega

/-- Witness for C5 at cap 5 and `onboardWitnessState`, with the capped join
total and post-absorption class count evaluated concretely. -/
theorem onboarding_cap_spec_witness :
    (0 ≤ onboardWitnessState.bn_na ∧ 0 ≤ onboardWitnessState.bn_home ∧
      0 ≤ onboardWitnessState.bn_cs) ∧
    (apply_onboarding_cap (some 5) onboardWitnessState).joins ≤ 5 ∧
    (apply_onboarding_cap (some 5) onboardWitnessState).joins = 5 ∧
    (apply_onboarding_cap (some 5) onboardWitnessState).class_joins = 0 ∧
    (apply_onboarding_cap (some 5) onboardWitnessState).pool_na = 12 :=
  ⟨⟨by decide, by decide, by decide⟩,
    (onboarding_cap_spec 5 onboardWitnessState (by decide) (by decide)
      (by decide)).1,
    by decide, by decide, by decide⟩

/-- C3: for every deterministic trial body, every seed tuple and every
baseline snapshot, the rows the driver's trial loop emits are exactly the
pure per-trial function of `(global_seed, rent, draw, scenario_index,
trial_index)` and the baseline — independent of whatever mutated
global state the loop inherits — so two executions from any two inherited
states produce identical result rows for every trial. -/
theorem trial_loop_deterministic {Row : Type}
    (runTrial : List ℤ → MutGlobals → Row × MutGlobals)
    (random_seed rent draw scen_index : ℤ) (base : MutGlobals) :
    ∀ (n sim : ℕ) (g g2 : MutGlobals),
      trial_loop runTrial random_seed rent draw scen_index base sim n g =
        spec_trial_rows runTrial random_seed rent draw scen_index base sim n ∧
      trial_loop runTrial random_seed rent draw scen_index base sim n g =
        trial_loop runTrial random_seed rent draw scen_index base sim n g2 := by
  intro n
  induction n with
  | zero => exact fun sim g g2 => ⟨rfl, rfl⟩
  | succ n ih =>
    intro sim g g2
    have hreset : ∀ gg : MutGlobals, reset_globals base gg = base :=
      fun _ => rfl
    constructor
    · show _ :: _ = _ :: _
      rw [hreset]
      exact congrArg _ (ih (sim + 1) _ base).1
    · show _ :: _ = _ :: _
      rw [hreset, hreset]

end PotterySim
